import Mathlib

/-!
Verification of the core of `ics-schedule-creator` (`src/App.js`): a shallow
embedding of the Schedule Loader (`handleFileChange`) and the Calendar
Expander (`generateICalFile`), followed by theorems about the embedded
functions.

Modelling conventions:
- JavaScript strings become `String`; an object field that may be absent
  becomes `Option String`, and JS truthiness on such a field is
  `truthyStr` (present and non-empty).
- A `Date` value at local midnight becomes an `Int` day number (the output
  of `daysFromCivil`); a date-time becomes an `Int` count of wall-clock
  minutes, `dayNumber * 1440 + hour * 60 + minute`, which reproduces the
  normalization `Date.prototype.setHours` applies to out-of-range
  components.  No timezone is modelled, matching the local wall-clock
  semantics of the source.
- Exceptions caught by the `try`/`catch` in `generateICalFile` become
  `Except GenError`; `ical-generator`'s `createEvent` throws on an invalid
  `Date` (one built from a `NaN` produced by `parseInt`), which the
  embedding renders as `Except.error .expansionFailed` at the point the
  event would be created.
-/

/-- JS truthiness of a possibly-absent string field: `undefined` and the
empty string are falsy, every other string is truthy. -/
def truthyStr : Option String → Bool
  | some s => !(s == "")
  | none => false

/-- JS `String.prototype.split` with a one-character separator, expressed
on the character list of the string: `split("")` is `[""]`, and separators
at either end produce empty groups. -/
def splitChar (sep : Char) : List Char → List (List Char)
  | [] => [[]]
  | c :: cs =>
    if c == sep then [] :: splitChar sep cs
    else
      match splitChar sep cs with
      | [] => [[c]]
      | g :: gs => (c :: g) :: gs

/-- JS `parseInt(s, 10)` on a character list: skip leading whitespace, read
an optional sign and then a maximal run of decimal digits; `none` models
`NaN` (no digits). -/
def jsParseIntChars (chars0 : List Char) : Option Int :=
  let chars := chars0.dropWhile (fun c => c.isWhitespace)
  let signAndRest : Int × List Char :=
    match chars with
    | '-' :: r => (-1, r)
    | '+' :: r => (1, r)
    | r => (1, r)
  let digits := signAndRest.2.takeWhile (fun c => c.isDigit)
  if digits.isEmpty then none
  else some (signAndRest.1 * (Int.ofNat (digits.foldl (fun a c => a * 10 + (c.toNat - 48)) 0)))

/-- JS `parseInt(s, 10)` on a string. -/
def jsParseInt (s : String) : Option Int :=
  jsParseIntChars s.data

/-- The time-of-day computation of `generateICalFile`: split on `:`, parse
the first two components with `parseInt`, and combine as minutes.  `none`
models the `NaN` case (either component missing or non-numeric), which
produces an invalid `Date`. -/
def parseClockMinutes (s : String) : Option Int :=
  let parts := splitChar ':' s.data
  match parts.get? 0, parts.get? 1 with
  | some hs, some ms =>
    match jsParseIntChars hs, jsParseIntChars ms with
    | some h, some m => some (h * 60 + m)
    | _, _ => none
  | _, _ => none

/-- JS `s.charAt(0).toUpperCase() + s.slice(1)`, used to build the
`"Teaching Hours"` / `"Student Hours"` labels. -/
def jsCapitalize (s : String) : String :=
  match s.data with
  | [] => ""
  | c :: rest => String.mk (c.toUpper :: rest)

/-- One entry of a weekday's schedule array, with every field optional as in
the parsed JSON. -/
structure ScheduleItem where
  type : Option String
  startTime : Option String
  endTime : Option String
  className : Option String
  description : Option String
  classLocation : Option String
deriving DecidableEq, Repr

/-- The `schedule` object of a parsed `.cccsched` file.  Each weekday maps
to `some items` when the key is present and holds an array (the
`Array.isArray` check in the source), and to `none` otherwise. -/
structure WeeklySchedule where
  monday : Option (List ScheduleItem)
  tuesday : Option (List ScheduleItem)
  wednesday : Option (List ScheduleItem)
  thursday : Option (List ScheduleItem)
  friday : Option (List ScheduleItem)
  saturday : Option (List ScheduleItem)
  sunday : Option (List ScheduleItem)
deriving DecidableEq, Repr

/-- The dynamic lookup `scheduleData.schedule[dayOfWeek]` for the seven
strings `format(day, 'EEEE').toLowerCase()` can produce. -/
def WeeklySchedule.lookup (sched : WeeklySchedule) (day : String) : Option (List ScheduleItem) :=
  if day == "monday" then sched.monday
  else if day == "tuesday" then sched.tuesday
  else if day == "wednesday" then sched.wednesday
  else if day == "thursday" then sched.thursday
  else if day == "friday" then sched.friday
  else if day == "saturday" then sched.saturday
  else if day == "sunday" then sched.sunday
  else none

/-- One event handed to `cal.createEvent`.  Times are wall-clock minutes;
`location`, `status` and `transparency` are `none` when the source object
literal omits the key. -/
structure CalendarEvent where
  start : Int
  end_ : Int
  summary : String
  description : String
  location : Option String
  busyStatus : String
  status : Option String
  transparency : Option String
deriving DecidableEq, Repr

/-- The two user-facing failures of `generateICalFile`: the up-front guard
message (missing schedule data or an empty date string) and the message set
by the `catch` block. -/
inductive GenError where
  | missingDateRange
  | expansionFailed
deriving DecidableEq, Repr

/-- Gregorian leap-year rule. -/
def isLeapYear (y : Int) : Bool :=
  (y % 4 == 0 && !(y % 100 == 0)) || y % 400 == 0

/-- Number of days in a month of the proleptic Gregorian calendar. -/
def daysInMonth (y m : Int) : Int :=
  if m == 1 || m == 3 || m == 5 || m == 7 || m == 8 || m == 10 || m == 12 then 31
  else if m == 4 || m == 6 || m == 9 || m == 11 then 30
  else if isLeapYear y then 29
  else 28

/-- Day number of a civil date (days since 0000-03-01 of the proleptic
Gregorian calendar); all intermediate divisions have nonnegative operands
for the years a `YYYY-MM-DD` string can denote. -/
def daysFromCivil (y m d : Int) : Int :=
  let yAdj := if m ≤ 2 then y - 1 else y
  let era := (if 0 ≤ yAdj then yAdj else yAdj - 399) / 400
  let yoe := yAdj - era * 400
  let mp := (m + 9) % 12
  let doy := (153 * mp + 2) / 5 + d - 1
  let doe := yoe * 365 + yoe / 4 - yoe / 100 + doy
  era * 146097 + doe

/-- Lowercase English weekday name of a day number, the value of
`format(day, 'EEEE').toLowerCase()`. -/
def weekdayName (dayNum : Int) : String :=
  match ((dayNum % 7 + 7) % 7).toNat with
  | 0 => "wednesday"
  | 1 => "thursday"
  | 2 => "friday"
  | 3 => "saturday"
  | 4 => "sunday"
  | 5 => "monday"
  | _ => "tuesday"

/-- True when a character list is non-empty and all decimal digits. -/
def allDigits (chars : List Char) : Bool :=
  !chars.isEmpty && chars.all (fun c => c.isDigit)

/-- Numeric value of a digit character list. -/
def digitsToInt (chars : List Char) : Int :=
  Int.ofNat (chars.foldl (fun a c => a * 10 + (c.toNat - 48)) 0)

/-- date-fns `parseISO` restricted to the `YYYY-MM-DD` strings a date input
supplies: `some dayNumber` for a valid calendar date, `none` for the
`Invalid Date` value. -/
def parseISO (s : String) : Option Int :=
  match splitChar '-' s.data with
  | [ys, ms, ds] =>
    if allDigits ys && allDigits ms && allDigits ds
        && ys.length == 4 && ms.length == 2 && ds.length == 2 then
      let y := digitsToInt ys
      let m := digitsToInt ms
      let d := digitsToInt ds
      if 1 ≤ m && m ≤ 12 && 1 ≤ d && d ≤ daysInMonth y m then
        some (daysFromCivil y m d)
      else none
    else none
  | _ => none

/-- Modelled from the spec: the enumeration performed by date-fns
`eachDayOfInterval`, every calendar date in `[s, e]` in ascending order,
one per day.  The spec states that when `e < s` the enumeration is empty
and expansion succeeds with no events; the exact behaviour of the library
on a reversed interval depends on the date-fns version pinned in
`package.json`, which is not part of the sources. -/
def eachDayOfInterval (s e : Int) : List Int :=
  if s ≤ e then (List.range (e - s + 1).toNat).map (fun i => s + Int.ofNat i) else []

/-- The object literal passed to `cal.createEvent` in the
`teaching`/`student` branch. -/
def busyEvent (day : Int) (item : ScheduleItem) (sm em : Int) : CalendarEvent :=
  { start := day * 1440 + sm
    end_ := day * 1440 + em
    summary := if truthyStr item.className then item.className.getD ""
               else jsCapitalize (item.type.getD "") ++ " Hours"
    description := item.description.getD ""
    location := some (item.classLocation.getD "")
    busyStatus := "BUSY"
    status := none
    transparency := none }

/-- The object literal passed to `cal.createEvent` in the `campus`
branch. -/
def campusEvent (day : Int) (sm em : Int) : CalendarEvent :=
  { start := day * 1440 + sm
    end_ := day * 1440 + em
    summary := "On Campus (Available for Meetings)"
    description := "Instructor is on campus and available for meetings during this time."
    location := none
    busyStatus := "FREE"
    status := some "CONFIRMED"
    transparency := some "TRANSPARENT" }

/-- The per-item body of the inner `forEach` of `generateICalFile`:
`Except.ok none` when the item is skipped, `Except.ok (some ev)` when
`cal.createEvent` is reached with valid dates, `Except.error` when
`createEvent` throws on an invalid date built from a `NaN` time
component. -/
def processItem (day : Int) (item : ScheduleItem) : Except GenError (Option CalendarEvent) :=
  if truthyStr item.type && truthyStr item.startTime && truthyStr item.endTime then
    if item.type.getD "" == "teaching" || item.type.getD "" == "student" then
      match parseClockMinutes (item.startTime.getD ""), parseClockMinutes (item.endTime.getD "") with
      | some sm, some em => Except.ok (some (busyEvent day item sm em))
      | _, _ => Except.error GenError.expansionFailed
    else if item.type.getD "" == "campus" then
      match parseClockMinutes (item.startTime.getD ""), parseClockMinutes (item.endTime.getD "") with
      | some sm, some em => Except.ok (some (campusEvent day sm em))
      | _, _ => Except.error GenError.expansionFailed
    else
      Except.ok none
  else
    Except.ok none

/-- The inner `forEach` over one weekday's items, accumulating the created
events in order; the first thrown exception aborts the whole call. -/
def processItems (day : Int) : List ScheduleItem → Except GenError (List CalendarEvent)
  | [] => Except.ok []
  | item :: rest =>
    match processItem day item with
    | Except.error e => Except.error e
    | Except.ok none => processItems day rest
    | Except.ok (some ev) =>
      match processItems day rest with
      | Except.error e => Except.error e
      | Except.ok evs => Except.ok (ev :: evs)

/-- The body of the outer `forEach`: weekday lookup, `Array.isArray` guard,
then the item loop. -/
def processDay (sched : WeeklySchedule) (day : Int) : Except GenError (List CalendarEvent) :=
  match WeeklySchedule.lookup sched (weekdayName day) with
  | none => Except.ok []
  | some items => processItems day items

/-- The outer `forEach` over the enumerated days, concatenating each day's
events in enumeration order. -/
def expandDays (sched : WeeklySchedule) : List Int → Except GenError (List CalendarEvent)
  | [] => Except.ok []
  | d :: rest =>
    match processDay sched d with
    | Except.error e => Except.error e
    | Except.ok evs =>
      match expandDays sched rest with
      | Except.error e => Except.error e
      | Except.ok more => Except.ok (evs ++ more)

/-- Expansion of a schedule over a closed day-number interval: the event
list of the calendar document `generateICalFile` builds between
`parseISO` and `cal.toString()`. -/
def expandCal (sched : WeeklySchedule) (s e : Int) : Except GenError (List CalendarEvent) :=
  expandDays sched (eachDayOfInterval s e)

/-- `generateICalFile`: the guard on `scheduleData`/`startDate`/`endDate`
(the `missingDateRange` message), then the `try` block: `parseISO` on both
date strings, day enumeration, per-item event creation.  An invalid parsed
date makes `eachDayOfInterval` throw inside the `try`, surfacing as
`expansionFailed`. -/
def generateICalFile (scheduleData : Option WeeklySchedule) (startDate endDate : String) :
    Except GenError (List CalendarEvent) :=
  match scheduleData with
  | none => Except.error GenError.missingDateRange
  | some sched =>
    if startDate == "" || endDate == "" then
      Except.error GenError.missingDateRange
    else
      match parseISO startDate, parseISO endDate with
      | some ds, some de => expandCal sched ds de
      | _, _ => Except.error GenError.expansionFailed

/-- What reaches the output sink (`saveAs`): the finished document on
success, nothing when the `catch` block runs. -/
def deliveredDocument (scheduleData : Option WeeklySchedule) (startDate endDate : String) :
    Option (List CalendarEvent) :=
  (generateICalFile scheduleData startDate endDate).toOption

/-- An item the expansion materializes into an event: the three required
fields truthy and the type one of the recognized discriminators. -/
def materializable (item : ScheduleItem) : Bool :=
  truthyStr item.type && truthyStr item.startTime && truthyStr item.endTime &&
    (item.type.getD "" == "teaching" || item.type.getD "" == "student"
      || item.type.getD "" == "campus")

/-- Number of materializable items the weekly template holds for one
enumerated day. -/
def materializableCount (sched : WeeklySchedule) (day : Int) : Nat :=
  ((WeeklySchedule.lookup sched (weekdayName day)).getD []).countP (fun i => materializable i)

/-- A JSON value as produced by `JSON.parse`; numbers are modelled as
integers (the only numeric point the loader's truthiness check
distinguishes is zero). -/
inductive Json where
  | null
  | bool (b : Bool)
  | num (n : Int)
  | str (s : String)
  | arr (elems : List Json)
  | obj (fields : List (String × Json))

/-- JS truthiness of a JSON value: `null`, `false`, `0` and `""` are falsy;
every array and object is truthy. -/
def jsTruthy : Json → Bool
  | Json.null => false
  | Json.bool b => b
  | Json.num n => !(n == 0)
  | Json.str s => !(s == "")
  | Json.arr _ => true
  | Json.obj _ => true

/-- JS property access `doc.key`: `none` models `undefined` (key absent, or
the value is not an object).  The field lists `JSON.parse` produces have
distinct keys. -/
def Json.getField (j : Json) (key : String) : Option Json :=
  match j with
  | Json.obj fields => fields.lookup key
  | _ => none

/-- JS truthiness of a possibly-`undefined` value. -/
def jsTruthyOpt : Option Json → Bool
  | some v => jsTruthy v
  | none => false

/-- The failures of `handleFileChange`: wrong extension, unparseable
content, and the thrown `'Invalid file format: missing schedule data'`.
The source maps the last two to one user-facing message; they are kept
apart here as the spec's taxonomy does. -/
inductive LoadError where
  | invalidExtension
  | malformedDocument
  | missingScheduleField
deriving DecidableEq, Repr

/-- JS `String.prototype.endsWith`, expressed as a suffix test on character
lists. -/
def strEndsWith (s suffix : String) : Bool :=
  suffix.data.isSuffixOf s.data

/-- The loader core of `handleFileChange`: extension check, then the parsed
content (`none` when `JSON.parse` threw), then the
`if (!parsedData.schedule) throw` truthiness check. -/
def load (fileName : String) (parsed : Option Json) : Except LoadError Json :=
  if strEndsWith fileName ".cccsched" then
    match parsed with
    | none => Except.error LoadError.malformedDocument
    | some doc =>
      if jsTruthyOpt (doc.getField "schedule") then Except.ok doc
      else Except.error LoadError.missingScheduleField
  else Except.error LoadError.invalidExtension

/-- Concrete teaching item used by witnesses (Scenario A of the spec). -/
def sampleItem : ScheduleItem :=
  { type := some "teaching", startTime := some "09:00", endTime := some "10:30",
    className := some "CS101", description := none, classLocation := some "Room 1" }

/-- Concrete schedule used by witnesses: one teaching item on Monday. -/
def sampleSchedule : WeeklySchedule :=
  { monday := some [sampleItem], tuesday := none, wednesday := none, thursday := none,
    friday := none, saturday := none, sunday := none }

/-- Event list `expandCal` produces from `sampleSchedule` over the
day-number interval `[5, 6]` (a Monday and a Tuesday). -/
def sampleEvents : List CalendarEvent := [busyEvent 5 sampleItem 540 630]

/-- Item with an unrecognized type, used by witnesses. -/
def unknownTypeItem : ScheduleItem :=
  { type := some "office", startTime := some "09:00", endTime := some "10:00",
    className := none, description := none, classLocation := none }

/-- Student-hours item with no class name, used by witnesses. -/
def sampleStudentItem : ScheduleItem :=
  { type := some "student", startTime := some "13:00", endTime := some "14:00",
    className := none, description := none, classLocation := none }

/-- Campus item whose optional fields are all set, used by witnesses to
show the campus branch ignores them. -/
def sampleCampusItem : ScheduleItem :=
  { type := some "campus", startTime := some "08:00", endTime := some "09:00",
    className := some "ignored", description := some "ignored", classLocation := some "ignored" }

/-- Teaching item whose end time precedes its start time, used by
witnesses. -/
def invertedItem : ScheduleItem :=
  { type := some "teaching", startTime := some "10:00", endTime := some "09:00",
    className := none, description := none, classLocation := none }

/-- Teaching item whose start time is not numeric, used by witnesses: its
`parseInt` produces `NaN` and event creation throws. -/
def badTimeItem : ScheduleItem :=
  { type := some "teaching", startTime := some "bad", endTime := some "10:00",
    className := none, description := none, classLocation := none }

/-- Schedule whose Monday item has an unparseable time, used by
witnesses. -/
def badTimeSchedule : WeeklySchedule :=
  { monday := some [badTimeItem], tuesday := none, wednesday := none, thursday := none,
    friday := none, saturday := none, sunday := none }

/-- Teaching item with out-of-range time components, used by witnesses. -/
def rolloverItem : ScheduleItem :=
  { type := some "teaching", startTime := some "25:70", endTime := some "26:00",
    className := none, description := none, classLocation := none }

/-! Helper lemmas about the per-item step. -/

theorem processItem_error_eq (day : Int) (item : ScheduleItem) (e : GenError)
    (h : processItem day item = Except.error e) : e = GenError.expansionFailed := by
  unfold processItem at h
  split at h <;> try simp at h
  split at h <;> try simp at h
  · split at h <;> simp_all
  · split at h <;> try simp at h
    split at h <;> simp_all

theorem processItem_some_materializable (day : Int) (item : ScheduleItem) (ev : CalendarEvent)
    (h : processItem day item = Except.ok (some ev)) : materializable item = true := by
  unfold processItem at h
  split at h <;> try simp at h
  rename_i htriple
  split at h
  · rename_i htype
    simp [materializable, htriple, Bool.or_eq_true] at htype ⊢
    tauto
  · split at h
    · rename_i hcampus
      simp [materializable, htriple, Bool.or_eq_true] at hcampus ⊢
      tauto
    · simp at h

theorem processItem_none_not_materializable (day : Int) (item : ScheduleItem)
    (h : processItem day item = Except.ok none) : materializable item = false := by
  unfold processItem at h
  split at h
  · rename_i htriple
    split at h
    · split at h <;> simp at h
    · split at h
      · split at h <;> simp at h
      · rename_i hnotTS hnotC
        simp only [materializable, htriple, Bool.true_and]
        simp only [Bool.or_eq_true, not_or, Bool.not_eq_true] at hnotTS hnotC
        simp [hnotTS.1, hnotTS.2, hnotC]
  · rename_i htriple
    simp only [Bool.not_eq_true] at htriple
    simp [materializable, htriple]

theorem processItem_not_materializable_none (day : Int) (item : ScheduleItem)
    (h : materializable item = false) : processItem day item = Except.ok none := by
  unfold processItem
  split
  · rename_i htriple
    simp only [materializable, htriple, Bool.true_and] at h
    split
    · rename_i htype
      simp only [Bool.or_eq_false_iff] at h
      simp [htype] at h
      obtain ⟨⟨h1, h2⟩, h3⟩ := h
      simp [h1, h2] at htype
    · split
      · rename_i hcampus
        simp only [Bool.or_eq_false_iff] at h
        simp [hcampus] at h
      · rfl
  · rfl

/-! Helper lemmas about the loops: counting and error propagation. -/

theorem processItems_length (day : Int) (items : List ScheduleItem) (evs : List CalendarEvent)
    (h : processItems day items = Except.ok evs) :
    evs.length = items.countP (fun i => materializable i) := by
  induction items generalizing evs with
  | nil =>
    simp only [processItems] at h
    injection h with h
    simp [h.symm]
  | cons item rest ih =>
    simp only [processItems] at h
    cases hpi : processItem day item with
    | error e => rw [hpi] at h; simp at h
    | ok evOpt =>
      rw [hpi] at h
      cases evOpt with
      | none =>
        have hmat := processItem_none_not_materializable day item hpi
        simp only [List.countP_cons, hmat]
        simp [ih evs h]
      | some ev =>
        have hmat := processItem_some_materializable day item ev hpi
        cases hrest : processItems day rest with
        | error e => rw [hrest] at h; simp at h
        | ok evs' =>
          rw [hrest] at h
          injection h with h
          simp only [List.countP_cons, hmat]
          simp [h.symm, ih evs' hrest]

theorem processDay_length (sched : WeeklySchedule) (d : Int) (evs : List CalendarEvent)
    (h : processDay sched d = Except.ok evs) :
    evs.length = materializableCount sched d := by
  unfold processDay at h
  unfold materializableCount
  cases hl : WeeklySchedule.lookup sched (weekdayName d) with
  | none => rw [hl] at h; injection h with h; simp [h.symm]
  | some items =>
    rw [hl] at h
    simp only [Option.getD_some]
    exact processItems_length d items evs h

theorem expandDays_length (sched : WeeklySchedule) (days : List Int) (evs : List CalendarEvent)
    (h : expandDays sched days = Except.ok evs) :
    evs.length = (days.map (fun d => materializableCount sched d)).sum := by
  induction days generalizing evs with
  | nil => simp only [expandDays] at h; injection h with h; simp [h.symm]
  | cons d rest ih =>
    simp only [expandDays] at h
    cases hd : processDay sched d with
    | error e => rw [hd] at h; simp at h
    | ok evs1 =>
      rw [hd] at h
      cases hrest : expandDays sched rest with
      | error e => rw [hrest] at h; simp at h
      | ok evs2 =>
        rw [hrest] at h
        injection h with h
        simp [h.symm, processDay_length sched d evs1 hd, ih evs2 hrest]

theorem processItems_error_eq (day : Int) (items : List ScheduleItem) (e : GenError)
    (h : processItems day items = Except.error e) : e = GenError.expansionFailed := by
  induction items with
  | nil => simp [processItems] at h
  | cons item rest ih =>
    simp only [processItems] at h
    cases hpi : processItem day item with
    | error e' =>
      rw [hpi] at h; injection h with h
      exact h ▸ processItem_error_eq day item e' hpi
    | ok evOpt =>
      rw [hpi] at h
      cases evOpt with
      | none => exact ih h
      | some ev =>
        cases hrest : processItems day rest with
        | error e' => rw [hrest] at h; injection h with h; exact ih (h ▸ hrest)
        | ok evs' => rw [hrest] at h; simp at h

theorem expandDays_error_eq (sched : WeeklySchedule) (days : List Int) (e : GenError)
    (h : expandDays sched days = Except.error e) : e = GenError.expansionFailed := by
  induction days with
  | nil => simp [expandDays] at h
  | cons d rest ih =>
    simp only [expandDays] at h
    cases hd : processDay sched d with
    | error e' =>
      rw [hd] at h; injection h with h
      unfold processDay at hd
      cases hl : WeeklySchedule.lookup sched (weekdayName d) with
      | none => rw [hl] at hd; simp at hd
      | some items =>
        rw [hl] at hd
        exact h ▸ processItems_error_eq d items e' hd
    | ok evs1 =>
      rw [hd] at h
      cases hrest : expandDays sched rest with
      | error e' => rw [hrest] at h; injection h with h; exact ih (h ▸ hrest)
      | ok evs2 => rw [hrest] at h; simp at h

/-! Claim theorems. -/

/-- C1: for every weekly schedule and closed day interval `[s, e]` with
`s ≤ e`, a successful expansion emits exactly as many events as the sum,
over each enumerated day (weekends included), of the number of
materializable items the template holds under that day's weekday name. -/
theorem expand_event_count (sched : WeeklySchedule) (s e : Int) (_hse : s ≤ e)
    (events : List CalendarEvent) (hok : expandCal sched s e = Except.ok events) :
    events.length = ((eachDayOfInterval s e).map (fun d => materializableCount sched d)).sum :=
  expandDays_length sched (eachDayOfInterval s e) events hok

theorem expand_event_count_witness :
    (5 : Int) ≤ 6 ∧
    sampleEvents.length =
      ((eachDayOfInterval 5 6).map (fun d => materializableCount sampleSchedule d)).sum :=
  ⟨by decide, expand_event_count sampleSchedule 5 6 (by decide) sampleEvents (by rfl)⟩

/-- C2: for every schedule and every pair of valid dates whose end precedes
the start, `generateICalFile` succeeds and the produced document contains
zero events. -/
theorem expand_reversed_interval_empty (sched : WeeklySchedule) (startDate endDate : String)
    (ds de : Int) (hs : parseISO startDate = some ds) (he : parseISO endDate = some de)
    (hlt : de < ds) :
    generateICalFile (some sched) startDate endDate = Except.ok [] := by
  have h1 : (startDate == "") = false := by
    apply beq_eq_false_iff_ne.mpr
    intro hh
    rw [hh, show parseISO "" = none from rfl] at hs
    exact Option.noConfusion hs
  have h2 : (endDate == "") = false := by
    apply beq_eq_false_iff_ne.mpr
    intro hh
    rw [hh, show parseISO "" = none from rfl] at he
    exact Option.noConfusion he
  unfold generateICalFile
  rw [h1, h2]
  simp only [Bool.or_self, Bool.false_eq_true, ite_false]
  rw [hs, he]
  show expandCal sched ds de = Except.ok []
  unfold expandCal eachDayOfInterval
  rw [if_neg (by omega)]
  rfl

theorem expand_reversed_interval_empty_witness :
    generateICalFile (some sampleSchedule) "2024-01-02" "2024-01-01" = Except.ok [] :=
  expand_reversed_interval_empty sampleSchedule "2024-01-02" "2024-01-01"
    (daysFromCivil 2024 1 2) (daysFromCivil 2024 1 1) (by rfl) (by rfl) (by decide)

/-- C3: during expansion an event is emitted for an item only when `type`,
`startTime` and `endTime` are all present and truthy and the type is
`teaching`, `student` or `campus`; an item failing any of that yields no
event and causes no error. -/
theorem processItem_materialization_guard (day : Int) (item : ScheduleItem) :
    (∀ ev : CalendarEvent, processItem day item = Except.ok (some ev) → materializable item = true) ∧
    (materializable item = false → processItem day item = Except.ok none) :=
  ⟨fun ev h => processItem_some_materializable day item ev h,
   fun h => processItem_not_materializable_none day item h⟩

theorem processItem_materialization_guard_witness :
    processItem 0 unknownTypeItem = Except.ok none :=
  (processItem_materialization_guard 0 unknownTypeItem).2 (by decide)

/-- C4: every event materialized from a `teaching` or `student` item has
summary `className` when that field is truthy and otherwise the capitalized
type word followed by `" Hours"`, description `description` or empty,
location `classLocation` or empty, and busyStatus `BUSY`. -/
theorem busy_event_fields (day : Int) (item : ScheduleItem) (ev : CalendarEvent)
    (htype : item.type = some "teaching" ∨ item.type = some "student")
    (h : processItem day item = Except.ok (some ev)) :
    ev.summary = (if truthyStr item.className then item.className.getD ""
                  else jsCapitalize (item.type.getD "") ++ " Hours") ∧
    ev.description = item.description.getD "" ∧
    ev.location = some (item.classLocation.getD "") ∧
    ev.busyStatus = "BUSY" := by
  unfold processItem at h
  split at h
  · split at h
    · split at h
      · injection h with h
        injection h with h
        rw [← h]
        exact ⟨rfl, rfl, rfl, rfl⟩
      · simp at h
    · rename_i hnot
      exfalso
      rcases htype with ht | ht <;> simp [ht] at hnot
  · exfalso
    simp at h

theorem busy_event_fields_witness :
    ((busyEvent 0 sampleStudentItem 780 840).summary =
        (if truthyStr sampleStudentItem.className then sampleStudentItem.className.getD ""
         else jsCapitalize (sampleStudentItem.type.getD "") ++ " Hours") ∧
      (busyEvent 0 sampleStudentItem 780 840).description = sampleStudentItem.description.getD "" ∧
      (busyEvent 0 sampleStudentItem 780 840).location = some (sampleStudentItem.classLocation.getD "") ∧
      (busyEvent 0 sampleStudentItem 780 840).busyStatus = "BUSY") ∧
    (busyEvent 0 sampleStudentItem 780 840).summary = "Student Hours" :=
  ⟨busy_event_fields 0 sampleStudentItem (busyEvent 0 sampleStudentItem 780 840)
      (Or.inr rfl) (by rfl),
   by rfl⟩

/-- C5: every event materialized from a `campus` item has the fixed
summary, the fixed availability description, busyStatus `FREE`, status
`CONFIRMED` and transparency `TRANSPARENT`, whatever the item's
`className`, `description` and `classLocation` hold. -/
theorem campus_event_fields (day : Int) (item : ScheduleItem) (ev : CalendarEvent)
    (htype : item.type = some "campus")
    (h : processItem day item = Except.ok (some ev)) :
    ev.summary = "On Campus (Available for Meetings)" ∧
    ev.description = "Instructor is on campus and available for meetings during this time." ∧
    ev.busyStatus = "FREE" ∧
    ev.status = some "CONFIRMED" ∧
    ev.transparency = some "TRANSPARENT" := by
  unfold processItem at h
  split at h
  · split at h
    · rename_i hts
      exfalso
      simp [htype] at hts
    · split at h
      · split at h
        · injection h with h
          injection h with h
          rw [← h]
          exact ⟨rfl, rfl, rfl, rfl, rfl⟩
        · simp at h
      · rename_i hnc
        exfalso
        simp [htype] at hnc
  · exfalso
    simp at h

theorem campus_event_fields_witness :
    (campusEvent 3 480 540).summary = "On Campus (Available for Meetings)" ∧
    (campusEvent 3 480 540).description =
      "Instructor is on campus and available for meetings during this time." ∧
    (campusEvent 3 480 540).busyStatus = "FREE" ∧
    (campusEvent 3 480 540).status = some "CONFIRMED" ∧
    (campusEvent 3 480 540).transparency = some "TRANSPARENT" :=
  campus_event_fields 3 sampleCampusItem (campusEvent 3 480 540) rfl (by rfl)

/-- C6: whenever `generateICalFile` fails, nothing reaches the output sink
and, past the input guard, the surfaced error is the single expansion
failure; no partial document is ever delivered. -/
theorem expansion_all_or_nothing (scheduleData : Option WeeklySchedule)
    (startDate endDate : String) (err : GenError)
    (h : generateICalFile scheduleData startDate endDate = Except.error err) :
    deliveredDocument scheduleData startDate endDate = none ∧
    (∀ sched : WeeklySchedule, scheduleData = some sched → startDate ≠ "" → endDate ≠ "" →
      err = GenError.expansionFailed) := by
  constructor
  · unfold deliveredDocument
    rw [h]
    rfl
  · intro sched hsd hsne hene
    subst hsd
    unfold generateICalFile at h
    rw [beq_eq_false_iff_ne.mpr hsne, beq_eq_false_iff_ne.mpr hene] at h
    simp only [Bool.or_self, Bool.false_eq_true, ite_false] at h
    cases hps : parseISO startDate with
    | none =>
      rw [hps] at h
      cases hpe : parseISO endDate with
      | none => rw [hpe] at h; injection h with h; exact h.symm
      | some de => rw [hpe] at h; injection h with h; exact h.symm
    | some ds =>
      rw [hps] at h
      cases hpe : parseISO endDate with
      | none => rw [hpe] at h; injection h with h; exact h.symm
      | some de =>
        rw [hpe] at h
        exact expandDays_error_eq sched (eachDayOfInterval ds de) err h

theorem expansion_all_or_nothing_witness :
    deliveredDocument (some badTimeSchedule) "2024-01-01" "2024-01-01" = none :=
  (expansion_all_or_nothing (some badTimeSchedule) "2024-01-01" "2024-01-01"
    GenError.expansionFailed (by rfl)).1

/-- C8: every materialized event's start and end are exactly the enumerated
day combined with the parsed `startTime` and `endTime`, with no correction
or swap, so inverted or zero-length intervals pass through unchanged. -/
theorem event_times_passthrough (day : Int) (item : ScheduleItem) (ev : CalendarEvent)
    (h : processItem day item = Except.ok (some ev)) :
    ∃ sm em : Int,
      parseClockMinutes (item.startTime.getD "") = some sm ∧
      parseClockMinutes (item.endTime.getD "") = some em ∧
      ev.start = day * 1440 + sm ∧ ev.end_ = day * 1440 + em := by
  unfold processItem at h
  split at h
  · split at h
    · split at h
      · rename_i sm em hsm hem
        injection h with h
        injection h with h
        exact ⟨sm, em, hsm, hem, by rw [← h]; rfl, by rw [← h]; rfl⟩
      · simp at h
    · split at h
      · split at h
        · rename_i sm em hsm hem
          injection h with h
          injection h with h
          exact ⟨sm, em, hsm, hem, by rw [← h]; rfl, by rw [← h]; rfl⟩
        · simp at h
      · simp at h
  · simp at h

theorem event_times_passthrough_witness :
    (∃ sm em : Int,
      parseClockMinutes (invertedItem.startTime.getD "") = some sm ∧
      parseClockMinutes (invertedItem.endTime.getD "") = some em ∧
      (busyEvent 0 invertedItem 600 540).start = 0 * 1440 + sm ∧
      (busyEvent 0 invertedItem 600 540).end_ = 0 * 1440 + em) ∧
    (busyEvent 0 invertedItem 600 540).end_ < (busyEvent 0 invertedItem 600 540).start ∧
    processItem 0 invertedItem = Except.ok (some (busyEvent 0 invertedItem 600 540)) :=
  ⟨event_times_passthrough 0 invertedItem (busyEvent 0 invertedItem 600 540) (by rfl),
   by decide, by rfl⟩

/-- C10: an otherwise-materializable item whose time strings carry
colon-separated numeric components outside the `HH:MM` ranges still yields
an event, its times normalized by date arithmetic into later hours or days
rather than rejected. -/
theorem out_of_range_time_rollover (day : Int) (item : ScheduleItem) (st et : String)
    (smin emin : Int)
    (htype : item.type = some "teaching" ∨ item.type = some "student" ∨ item.type = some "campus")
    (hst : item.startTime = some st) (het : item.endTime = some et)
    (hstne : st ≠ "") (hetne : et ≠ "")
    (hsp : parseClockMinutes st = some smin) (hep : parseClockMinutes et = some emin) :
    ∃ ev : CalendarEvent, processItem day item = Except.ok (some ev) ∧
      ev.start = day * 1440 + smin ∧ ev.end_ = day * 1440 + emin := by
  have htruthy : (truthyStr item.type && truthyStr item.startTime && truthyStr item.endTime) = true := by
    rcases htype with h | h | h <;>
      simp [truthyStr, h, hst, het, hstne, hetne]
  unfold processItem
  rw [htruthy, if_pos rfl]
  rw [hst, het]
  simp only [Option.getD_some]
  rw [hsp, hep]
  rcases htype with h | h | h <;> rw [h] <;> simp only [Option.getD_some]
  · exact ⟨busyEvent day item smin emin, by rfl, rfl, rfl⟩
  · exact ⟨busyEvent day item smin emin, by rfl, rfl, rfl⟩
  · exact ⟨campusEvent day smin emin, by rfl, rfl, rfl⟩

theorem out_of_range_time_rollover_witness :
    (∃ ev : CalendarEvent, processItem 0 rolloverItem = Except.ok (some ev) ∧
      ev.start = 0 * 1440 + 1570 ∧ ev.end_ = 0 * 1440 + 1560) ∧
    (1570 : Int) = 1 * 1440 + 2 * 60 + 10 :=
  ⟨out_of_range_time_rollover 0 rolloverItem "25:70" "26:00" 1570 1560
      (Or.inl rfl) rfl rfl (by decide) (by decide) (by rfl) (by rfl),
   by decide⟩

/-- C7 fails on the code: a non-empty but unparseable start date passes the
guard, and the failure surfaces as the generic expansion error, not as the
missing-date-range error. -/
theorem missing_date_range_counterexample :
    generateICalFile (some sampleSchedule) "not-a-date" "2024-01-05" =
      Except.error GenError.expansionFailed ∧
    GenError.expansionFailed ≠ GenError.missingDateRange :=
  ⟨by rfl, by decide⟩

/-- C7 amended: with schedule data present, `generateICalFile` fails with
the missing-date-range error exactly when a date string is absent (empty);
a non-empty date string that does not parse as a valid calendar date makes
the run fail with the expansion error instead. -/
theorem date_range_error_classification (sched : WeeklySchedule) (startDate endDate : String) :
    (generateICalFile (some sched) startDate endDate = Except.error GenError.missingDateRange
      ↔ (startDate = "" ∨ endDate = "")) ∧
    (startDate ≠ "" → endDate ≠ "" →
      (parseISO startDate = none ∨ parseISO endDate = none) →
      generateICalFile (some sched) startDate endDate = Except.error GenError.expansionFailed) := by
  constructor
  · constructor
    · intro h
      by_contra hne
      push_neg at hne
      obtain ⟨hsne, hene⟩ := hne
      unfold generateICalFile at h
      rw [beq_eq_false_iff_ne.mpr hsne, beq_eq_false_iff_ne.mpr hene] at h
      simp only [Bool.or_self, Bool.false_eq_true, ite_false] at h
      cases hps : parseISO startDate with
      | none =>
        rw [hps] at h
        cases hpe : parseISO endDate with
        | none => rw [hpe] at h; injection h with h; exact GenError.noConfusion h
        | some de => rw [hpe] at h; injection h with h; exact GenError.noConfusion h
      | some ds =>
        rw [hps] at h
        cases hpe : parseISO endDate with
        | none => rw [hpe] at h; injection h with h; exact GenError.noConfusion h
        | some de =>
          rw [hpe] at h
          exact absurd (expandDays_error_eq sched (eachDayOfInterval ds de) _ h) (by decide)
    · intro h
      unfold generateICalFile
      rcases h with h | h <;> rw [h] <;> simp
  · intro hsne hene hpf
    unfold generateICalFile
    rw [beq_eq_false_iff_ne.mpr hsne, beq_eq_false_iff_ne.mpr hene]
    simp only [Bool.or_self, Bool.false_eq_true, ite_false]
    rcases hpf with h | h
    · cases hpe : parseISO endDate <;> rw [h]
    · cases hps : parseISO startDate <;> rw [h]

theorem date_range_error_classification_witness :
    generateICalFile (some sampleSchedule) "" "2024-01-05" =
      Except.error GenError.missingDateRange ∧
    generateICalFile (some sampleSchedule) "x" "2024-01-05" =
      Except.error GenError.expansionFailed :=
  ⟨(date_range_error_classification sampleSchedule "" "2024-01-05").1.mpr (Or.inl rfl),
   (date_range_error_classification sampleSchedule "x" "2024-01-05").2
      (by decide) (by decide) (Or.inl (by rfl))⟩

/-- C9: the loader rejects a parsed document as missing the schedule field
whenever the value under the `schedule` key is falsy, the same way it
rejects a document lacking the key entirely. -/
theorem load_falsy_schedule_rejected (fileName : String) (v : Json)
    (rest : List (String × Json))
    (hname : strEndsWith fileName ".cccsched" = true)
    (hfalsy : jsTruthy v = false)
    (habsent : (Json.obj rest).getField "schedule" = none) :
    load fileName (some (Json.obj (("schedule", v) :: rest))) =
      Except.error LoadError.missingScheduleField ∧
    load fileName (some (Json.obj rest)) = Except.error LoadError.missingScheduleField := by
  unfold load
  rw [hname]
  constructor
  · simp only [if_true]
    have hget : (Json.obj (("schedule", v) :: rest)).getField "schedule" = some v := by
      simp [Json.getField, List.lookup]
    rw [hget]
    simp [jsTruthyOpt, hfalsy]
  · simp only [if_true]
    rw [habsent]
    simp [jsTruthyOpt]

theorem load_falsy_schedule_rejected_witness :
    load "sched.cccsched" (some (Json.obj [("schedule", Json.null), ("other", Json.num 1)])) =
      Except.error LoadError.missingScheduleField ∧
    load "sched.cccsched" (some (Json.obj [("other", Json.num 1)])) =
      Except.error LoadError.missingScheduleField :=
  load_falsy_schedule_rejected "sched.cccsched" Json.null [("other", Json.num 1)]
    (by rfl) (by rfl) (by rfl)
